import Mathlib

/-!
Verification development for the hyperparameter-tuning comparison notebook
(random search vs. grid search over a decision-tree classifier).

The notebook is sequential glue around an external machine-learning library:
it loads a fixed dataset, splits it 80/20 with a fixed seed, fits a baseline
tree, runs a randomized search (50 trials, 5-fold CV, seed 42) and an
exhaustive grid search (5-fold CV, no seed), evaluates every best model on the
held-out test partition, and prints a three-row comparison table.

Tree induction, cross-validated scoring, parameter sampling and the
deterministic split live inside the external library and are therefore
modelled from the specification: scoring and prediction are injected as
opaque function-valued services, sampling and the split are given explicit
deterministic sources of randomness, and selection is first-seen argmax over
the candidate list, as the specification describes the library policy.
-/

set_option maxRecDepth 100000

namespace Notebook

/-- A hyperparameter configuration for the decision tree: the three tuned
parameters of the notebook. -/
structure Config where
  max_depth : ℕ
  min_samples_split : ℕ
  min_samples_leaf : ℕ
deriving DecidableEq, Repr

/-- Integer range helper mirroring np.arange over naturals: the values
a, a+1, ..., b-1. -/
def arange (a b : ℕ) : List ℕ :=
  (List.range (b - a)).map (fun i => a + i)

/-- From the source: the randomized search space, max_depth drawn from
np.arange(1, 20). -/
def param_dist_max_depth : List ℕ := arange 1 20

/-- From the source: the randomized search space, min_samples_split drawn from
np.arange(2, 20). -/
def param_dist_min_samples_split : List ℕ := arange 2 20

/-- From the source: the randomized search space, min_samples_leaf drawn from
np.arange(1, 20). -/
def param_dist_min_samples_leaf : List ℕ := arange 1 20

/-- From the source: the declared grid for max_depth. -/
def param_grid_max_depth : List ℕ := [3, 5, 10, 15]

/-- From the source: the declared grid for min_samples_split. -/
def param_grid_min_samples_split : List ℕ := [2, 5, 10]

/-- From the source: the declared grid for min_samples_leaf. -/
def param_grid_min_samples_leaf : List ℕ := [1, 5, 10]

/-- Modelled from the spec: the grid strategy enumerates the full Cartesian
product of the per-parameter candidate lists (the enumeration itself is
performed by the external library; keys are enumerated in sorted order,
the last varying fastest). -/
def gridCombos : List Config :=
  param_grid_max_depth.flatMap (fun d =>
    param_grid_min_samples_leaf.flatMap (fun l =>
      param_grid_min_samples_split.map (fun s =>
        { max_depth := d, min_samples_split := s, min_samples_leaf := l })))

/-- A labeled data partition: feature rows and their labels. -/
structure LabeledData where
  features : List (List ℚ)
  labels : List ℕ
deriving DecidableEq, Repr

/-- Modelled from the spec: a fitted model is opaque to the pipeline; it is
determined by the configuration used and the data it was fit on (tree
induction is an external library service). -/
structure FittedModel where
  cfg : Config
  trainData : LabeledData
deriving DecidableEq, Repr

/-- The triple a tuning run returns: winning configuration, refit model and
the wall-clock duration of the whole search. -/
structure TuningResult where
  best_params : Config
  best_estimator : FittedModel
  duration : ℚ
deriving DecidableEq, Repr

/-- First-seen argmax accumulator: the running best is replaced only on a
strictly larger score, so the earliest maximal candidate survives. -/
def argmaxAux (score : Config → ℚ) (best : Config) : List Config → Config
  | [] => best
  | c :: cs => argmaxAux score (if score best < score c then c else best) cs

/-- Modelled from the spec: both search strategies select the candidate with
the highest mean cross-validation accuracy, ties broken first-seen in the
candidate order (the policy inherited from the external library). -/
def selectBest (score : Config → ℚ) : List Config → Option Config
  | [] => none
  | c :: cs => some (argmaxAux score c cs)

/-- Modelled from the spec: the shared core of both tuning runners. Each
candidate is scored by mean k-fold cross-validation accuracy on the training
partition only (the scorer is an injected opaque service of the candidate and
the training data), the first-seen maximal candidate wins, and one final model
is refit on the entire training partition with the winning configuration.
The measured wall-clock duration is an input from the external clock. -/
def searchFit (score : Config → LabeledData → ℚ) (cands : List Config)
    (train : LabeledData) (dur : ℚ) : Option TuningResult :=
  match selectBest (fun c => score c train) cands with
  | none => none
  | some c =>
      some { best_params := c
           , best_estimator := { cfg := c, trainData := train }
           , duration := dur }

/-- From the source: n_iter=50 trials for the randomized search. -/
def n_iter : ℕ := 50

/-- Uniform pick from a candidate list, driven by one raw random draw. -/
def pick (xs : List ℕ) (d : ℕ) : ℕ :=
  xs.getD (d % xs.length) 0

/-- Modelled from the spec: one randomized trial samples each parameter
independently and uniformly from its declared range; the draw function
supplies the raw randomness for the three parameters. -/
def sampleConfig (draw : ℕ → ℕ) : Config :=
  { max_depth := pick param_dist_max_depth (draw 0)
  , min_samples_split := pick param_dist_min_samples_split (draw 1)
  , min_samples_leaf := pick param_dist_min_samples_leaf (draw 2) }

/-- Modelled from the spec: the randomized strategy draws exactly n_iter
configurations, one per trial, with no deduplication across trials. -/
def randomCandidates (draws : ℕ → ℕ → ℕ) : List Config :=
  (List.range n_iter).map (fun i => sampleConfig (draws i))

/-- The randomized tuning runner of the source: sample n_iter candidates from
param_dist, cross-validate, select, refit. -/
def random_search_fit (draws : ℕ → ℕ → ℕ) (score : Config → LabeledData → ℚ)
    (train : LabeledData) (dur : ℚ) : Option TuningResult :=
  searchFit score (randomCandidates draws) train dur

/-- The grid tuning runner of the source: cross-validate every grid
combination, select, refit. It takes no source of randomness. -/
def grid_search_fit (score : Config → LabeledData → ℚ)
    (train : LabeledData) (dur : ℚ) : Option TuningResult :=
  searchFit score gridCombos train dur

/-- Modelled from the spec: a small deterministic pseudo-random step (the
library draws its randomness deterministically from the given seed). -/
def lcgNext (s : ℕ) : ℕ :=
  (1103515245 * s + 12345) % 2147483648

/-- Modelled from the spec: the dataset provider shuffles the rows
deterministically from the fixed splitting seed (here: a seed-derived
rotation) and reserves the trailing 20% (rounded up, as the library does)
as the held-out test partition. -/
def train_test_split {α : Type} (seed : ℕ) (xs : List α) : List α × List α :=
  let n := xs.length
  let k := lcgNext seed % (n + 1)
  let sh := xs.drop k ++ xs.take k
  let nTest := (n + 4) / 5
  (sh.take (n - nTest), sh.drop (n - nTest))

/-- From the source: random_state=42 is the fixed splitting seed, and seed 42
also drives the randomized search. -/
def splitSeed : ℕ := 42

/-- The four partitions produced by the split, as the notebook names them. -/
structure SplitData where
  X_train : List (List ℚ)
  X_test : List (List ℚ)
  y_train : List ℕ
  y_test : List ℕ
deriving DecidableEq, Repr

/-- The split applied consistently to features and labels: rows and labels
are paired before shuffling so the partitions stay aligned. -/
def dataset_split (seed : ℕ) (X : List (List ℚ)) (y : List ℕ) : SplitData :=
  let p := train_test_split seed (List.zip X y)
  { X_train := p.1.map Prod.fst
  , X_test := p.2.map Prod.fst
  , y_train := p.1.map Prod.snd
  , y_test := p.2.map Prod.snd }

/-- The training partition packaged as one labeled dataset. -/
def trainOf (s : SplitData) : LabeledData :=
  { features := s.X_train, labels := s.y_train }

/-- Count of positions where prediction and truth agree. -/
def countCorrect (yTrue yPred : List ℕ) : ℕ :=
  (List.zip yTrue yPred).countP (fun p => p.1 == p.2)

/-- Modelled from the spec: accuracy is the count of correct predictions
divided by the count of test examples. -/
def accuracy_score (yTrue yPred : List ℕ) : ℚ :=
  (countCorrect yTrue yPred : ℚ) / (yTrue.length : ℚ)

/-- The opaque external library services the pipeline depends on: the mean
k-fold cross-validation scorer, prediction by a fitted model, and the
baseline fit-with-defaults-then-predict of the library. -/
structure Services where
  scoreCV : Config → LabeledData → ℚ
  predictFn : FittedModel → List (List ℚ) → List ℕ
  fitPredictDefault : LabeledData → List (List ℚ) → List ℕ

/-- Modelled from the spec: the seeded draw stream of the randomized search,
derived entirely from the fixed seed, trial index and parameter index. -/
def seededDraw (seed i j : ℕ) : ℕ :=
  lcgNext (lcgNext (seed + 1000003 * i + j))

/-- The draw stream the notebook uses: seeded with 42, as in the source. -/
def notebookDraws : ℕ → ℕ → ℕ :=
  fun i j => seededDraw 42 i j

/-- The tuning phase of the pipeline: both searches run on the training
partition only; the split is passed through untouched. Returns the random
result, the grid result and the (unchanged) split. -/
def tuningPhase (sv : Services) (draws : ℕ → ℕ → ℕ) (s : SplitData)
    (random_time grid_time : ℚ) :
    Option TuningResult × Option TuningResult × SplitData :=
  ( random_search_fit draws sv.scoreCV (trainOf s) random_time
  , grid_search_fit sv.scoreCV (trainOf s) grid_time
  , s )

/-- One row of the comparison table: method name, held-out accuracy,
training time in seconds. -/
structure Row where
  method : String
  accuracy : ℚ
  training_time : ℚ
deriving DecidableEq, Repr

/-- From the source: the comparison table, rows in the order Default,
Random Search, Grid Search, with the Default training time 0 by convention. -/
def results (default_accuracy random_accuracy grid_accuracy
    random_time grid_time : ℚ) : List Row :=
  [ { method := "Default", accuracy := default_accuracy, training_time := 0 }
  , { method := "Random Search", accuracy := random_accuracy
    , training_time := random_time }
  , { method := "Grid Search", accuracy := grid_accuracy
    , training_time := grid_time } ]

/-- One printed line per table row. -/
def renderRow (r : Row) : String :=
  r.method ++ " " ++ toString r.accuracy ++ " " ++ toString r.training_time

/-- From the source: printing the table emits one rendered line per row, in
table order, to standard output. -/
def reportOutput (rows : List Row) : List String :=
  rows.map renderRow

/-- Everything a pipeline run observably produces: the split it worked on,
the comparison table, and the lines written to standard output. -/
structure PipelineOutput where
  split : SplitData
  table : List Row
  stdout : List String
deriving DecidableEq, Repr

/-- Held-out accuracy of the best model of a tuning result: the fitted model
predicts on the test features and is scored against the test labels. An
absent result scores 0 (this branch is provably unreachable: both candidate
lists are nonempty). -/
def accuracyOfOpt (sv : Services) (s : SplitData) (o : Option TuningResult) : ℚ :=
  match o with
  | some r => accuracy_score s.y_test (sv.predictFn r.best_estimator s.X_test)
  | none => 0

/-- The whole notebook pipeline. The ambient random state ambientRng models
whatever external global randomness exists around the run; every seeded
component ignores it, and the grid search draws no randomness at all.
Measured wall-clock durations are inputs from the external clock. The test
partition is first read here, at final evaluation, after both searches. -/
def runPipeline (ambientRng : ℕ) (sv : Services) (X : List (List ℚ))
    (y : List ℕ) (random_time grid_time : ℚ) : PipelineOutput :=
  let s := dataset_split splitSeed X y
  let t := tuningPhase sv notebookDraws s random_time grid_time
  let default_accuracy :=
    accuracy_score t.2.2.y_test (sv.fitPredictDefault (trainOf s) t.2.2.X_test)
  let random_accuracy := accuracyOfOpt sv t.2.2 t.1
  let grid_accuracy := accuracyOfOpt sv t.2.2 t.2.1
  let table := results default_accuracy random_accuracy grid_accuracy
    random_time grid_time
  { split := t.2.2, table := table, stdout := reportOutput table }

/-- The grid search step with the ambient random state threaded explicitly:
the source constructs GridSearchCV without any random_state, so the step
neither reads nor advances the ambient state. -/
def grid_run (ambientRng : ℕ) (score : Config → LabeledData → ℚ)
    (train : LabeledData) (dur : ℚ) : Option TuningResult × ℕ :=
  (grid_search_fit score train dur, ambientRng)

/-- Modelled from the spec: the parameter domain the decision-tree
constructor accepts for the three tuned parameters (positive integer depth,
split threshold at least 2, leaf threshold at least 1). -/
def acceptsConfig (c : Config) : Prop :=
  1 ≤ c.max_depth ∧ 2 ≤ c.min_samples_split ∧ 1 ≤ c.min_samples_leaf

instance (c : Config) : Decidable (acceptsConfig c) := by
  unfold acceptsConfig
  infer_instance

/-- Modelled from the spec: the brute-force benchmark that re-scores every
grid combination independently by the same cross-validation procedure and
keeps the single best score. Stated from the words of the specification, to
be compared with the grid runner embedded from the source. -/
def bestScoreOf (score : Config → ℚ) : List Config → ℚ
  | [] => 0
  | c :: cs => cs.foldl (fun m d => max m (score d)) (score c)

/-- Modelled from the spec: the best score of the declared grid under
brute-force enumeration. -/
def bruteForceBestScore (score : Config → ℚ) : ℚ :=
  bestScoreOf score gridCombos

/-! ### Correctness of first-seen argmax selection -/

lemma argmaxAux_ge_init (score : Config → ℚ) :
    ∀ (cs : List Config) (b : Config), score b ≤ score (argmaxAux score b cs) := by
  intro cs
  induction cs with
  | nil => intro b; simp [argmaxAux]
  | cons c cs ih =>
    intro b
    simp only [argmaxAux]
    by_cases h : score b < score c
    · rw [if_pos h]
      exact le_of_lt (lt_of_lt_of_le h (ih c))
    · rw [if_neg h]
      exact ih b

lemma argmaxAux_mem (score : Config → ℚ) :
    ∀ (cs : List Config) (b : Config), argmaxAux score b cs ∈ b :: cs := by
  intro cs
  induction cs with
  | nil => intro b; simp [argmaxAux]
  | cons c cs ih =>
    intro b
    simp only [argmaxAux]
    by_cases h : score b < score c
    · rw [if_pos h]
      have := ih c
      simp only [List.mem_cons] at this ⊢
      tauto
    · rw [if_neg h]
      have := ih b
      simp only [List.mem_cons] at this ⊢
      tauto

lemma argmaxAux_ge_all (score : Config → ℚ) :
    ∀ (cs : List Config) (b : Config), ∀ x ∈ cs, score x ≤ score (argmaxAux score b cs) := by
  intro cs
  induction cs with
  | nil => intro b x hx; simp at hx
  | cons c cs ih =>
    intro b x hx
    simp only [argmaxAux]
    rcases List.mem_cons.mp hx with hx | hx
    · subst hx
      by_cases h : score b < score x
      · rw [if_pos h]
        exact argmaxAux_ge_init score cs x
      · rw [if_neg h]
        exact le_trans (not_lt.mp h) (argmaxAux_ge_init score cs b)
    · by_cases h : score b < score c
      · rw [if_pos h]
        exact ih c x hx
      · rw [if_neg h]
        exact ih b x hx

lemma argmaxAux_first_seen (score : Config → ℚ) :
    ∀ (cs : List Config) (b : Config),
      ∃ l₁ l₂, b :: cs = l₁ ++ argmaxAux score b cs :: l₂ ∧
        ∀ x ∈ l₁, score x < score (argmaxAux score b cs) := by
  intro cs
  induction cs with
  | nil =>
    intro b
    exact ⟨[], [], rfl, by simp⟩
  | cons c cs ih =>
    intro b
    simp only [argmaxAux]
    by_cases h : score b < score c
    · rw [if_pos h]
      obtain ⟨l₁, l₂, hdec, hstrict⟩ := ih c
      refine ⟨b :: l₁, l₂, ?_, ?_⟩
      · rw [List.cons_append, ← hdec]
      · intro x hx
        rcases List.mem_cons.mp hx with hx | hx
        · subst hx
          exact lt_of_lt_of_le h (argmaxAux_ge_init score cs c)
        · exact hstrict x hx
    · rw [if_neg h]
      obtain ⟨l₁, l₂, hdec, hstrict⟩ := ih b
      cases l₁ with
      | nil =>
        simp only [List.nil_append] at hdec
        refine ⟨[], c :: cs, ?_, by simp⟩
        rw [List.nil_append]
        have hb : argmaxAux score b cs = b := (List.cons.injEq _ _ _ _ ▸ hdec).1.symm
        rw [hb]
      | cons x l₁ =>
        have hx : x = b ∧ cs = l₁ ++ argmaxAux score b cs :: l₂ := by
          rw [List.cons_append] at hdec
          exact ⟨((List.cons.injEq _ _ _ _).mp hdec).1.symm,
                 ((List.cons.injEq _ _ _ _).mp hdec).2⟩
        refine ⟨b :: c :: l₁, l₂, ?_, ?_⟩
        · simp only [List.cons_append]
          rw [← hx.2]
        · intro z hz
          have hbr : score b < score (argmaxAux score b cs) := by
            have := hstrict x (List.mem_cons_self x l₁)
            rw [hx.1] at this
            exact this
          rcases List.mem_cons.mp hz with hz | hz
          · subst hz; exact hbr
          · rcases List.mem_cons.mp hz with hz | hz
            · subst hz
              exact lt_of_le_of_lt (not_lt.mp h) hbr
            · exact hstrict z (List.mem_cons_of_mem x hz)

lemma selectBest_spec (score : Config → ℚ) (cands : List Config) (c : Config)
    (h : selectBest score cands = some c) :
    c ∈ cands ∧ (∀ d ∈ cands, score d ≤ score c) ∧
      ∃ l₁ l₂, cands = l₁ ++ c :: l₂ ∧ ∀ d ∈ l₁, score d < score c := by
  cases cands with
  | nil => simp [selectBest] at h
  | cons x xs =>
    have hc : argmaxAux score x xs = c := by
      simpa [selectBest] using h
    subst hc
    refine ⟨argmaxAux_mem score xs x, ?_, argmaxAux_first_seen score xs x⟩
    intro d hd
    rcases List.mem_cons.mp hd with hd | hd
    · subst hd; exact argmaxAux_ge_init score xs d
    · exact argmaxAux_ge_all score xs x d hd

lemma searchFit_eq_some (score : Config → LabeledData → ℚ) (cands : List Config)
    (train : LabeledData) (dur : ℚ) (res : TuningResult)
    (h : searchFit score cands train dur = some res) :
    selectBest (fun c => score c train) cands = some res.best_params ∧
      res.best_estimator = { cfg := res.best_params, trainData := train } ∧
      res.duration = dur := by
  unfold searchFit at h
  cases hsel : selectBest (fun c => score c train) cands with
  | none => rw [hsel] at h; exact absurd h (by simp)
  | some c =>
    rw [hsel] at h
    have hres : res = { best_params := c
                      , best_estimator := { cfg := c, trainData := train }
                      , duration := dur } := (Option.some.inj h).symm
    subst hres
    exact ⟨rfl, rfl, rfl⟩

/-! ### Bounds for the brute-force maximum and the sampling helpers -/

lemma foldl_max_le (score : Config → ℚ) (B : ℚ) :
    ∀ (cs : List Config) (i : ℚ), i ≤ B → (∀ x ∈ cs, score x ≤ B) →
      cs.foldl (fun m d => max m (score d)) i ≤ B := by
  intro cs
  induction cs with
  | nil => intro i hi _; simpa using hi
  | cons c cs ih =>
    intro i hi hall
    simp only [List.foldl_cons]
    exact ih (max i (score c)) (max_le hi (hall c (List.mem_cons_self c cs)))
      (fun x hx => hall x (List.mem_cons_of_mem c hx))

lemma le_foldl_max_init (score : Config → ℚ) :
    ∀ (cs : List Config) (i : ℚ), i ≤ cs.foldl (fun m d => max m (score d)) i := by
  intro cs
  induction cs with
  | nil => intro i; simp
  | cons c cs ih =>
    intro i
    simp only [List.foldl_cons]
    exact le_trans (le_max_left i (score c)) (ih (max i (score c)))

lemma mem_le_foldl_max (score : Config → ℚ) :
    ∀ (cs : List Config) (i : ℚ), ∀ x ∈ cs,
      score x ≤ cs.foldl (fun m d => max m (score d)) i := by
  intro cs
  induction cs with
  | nil => intro i x hx; simp at hx
  | cons c cs ih =>
    intro i x hx
    simp only [List.foldl_cons]
    rcases List.mem_cons.mp hx with hx | hx
    · subst hx
      exact le_trans (le_max_right i (score x)) (le_foldl_max_init score cs _)
    · exact ih (max i (score c)) x hx

lemma bestScoreOf_le (score : Config → ℚ) (cands : List Config) (B : ℚ)
    (hne : cands ≠ []) (hall : ∀ x ∈ cands, score x ≤ B) :
    bestScoreOf score cands ≤ B := by
  cases cands with
  | nil => exact absurd rfl hne
  | cons c cs =>
    exact foldl_max_le score B cs (score c) (hall c (List.mem_cons_self c cs))
      (fun x hx => hall x (List.mem_cons_of_mem c hx))

lemma le_bestScoreOf (score : Config → ℚ) (cands : List Config) :
    ∀ x ∈ cands, score x ≤ bestScoreOf score cands := by
  intro x hx
  cases cands with
  | nil => simp at hx
  | cons c cs =>
    rcases List.mem_cons.mp hx with hx | hx
    · subst hx
      exact le_foldl_max_init score cs (score x)
    · exact mem_le_foldl_max score cs (score c) x hx

lemma mem_arange (a b x : ℕ) (h : x ∈ arange a b) : a ≤ x := by
  unfold arange at h
  obtain ⟨i, _, hix⟩ := List.mem_map.mp h
  omega

lemma pick_mem (xs : List ℕ) (d : ℕ) (h : xs ≠ []) : pick xs d ∈ xs := by
  have hlen : 0 < xs.length := List.length_pos.mpr h
  have hmod : d % xs.length < xs.length := Nat.mod_lt d hlen
  unfold pick
  rw [List.getD_eq_getElem xs 0 hmod]
  exact List.getElem_mem hmod

lemma param_dist_max_depth_ne_nil : param_dist_max_depth ≠ [] := by decide

lemma param_dist_min_samples_split_ne_nil : param_dist_min_samples_split ≠ [] := by
  decide

lemma param_dist_min_samples_leaf_ne_nil : param_dist_min_samples_leaf ≠ [] := by
  decide

lemma length_randomCandidates (draws : ℕ → ℕ → ℕ) :
    (randomCandidates draws).length = n_iter := by
  unfold randomCandidates
  rw [List.length_map, List.length_range]

lemma randomCandidates_ne_nil (draws : ℕ → ℕ → ℕ) : randomCandidates draws ≠ [] := by
  intro hnil
  have := length_randomCandidates draws
  rw [hnil] at this
  exact absurd this.symm (by decide)

lemma gridCombos_ne_nil : gridCombos ≠ [] := by decide

lemma searchFit_isSome (score : Config → LabeledData → ℚ) (cands : List Config)
    (train : LabeledData) (dur : ℚ) (hne : cands ≠ []) :
    ∃ res, searchFit score cands train dur = some res := by
  cases cands with
  | nil => exact absurd rfl hne
  | cons c cs => exact ⟨_, rfl⟩

/-! ### Bounds for accuracy -/

lemma accuracy_score_nonneg (yTrue yPred : List ℕ) :
    0 ≤ accuracy_score yTrue yPred :=
  div_nonneg (Nat.cast_nonneg _) (Nat.cast_nonneg _)

lemma countCorrect_le_length (yTrue yPred : List ℕ) :
    countCorrect yTrue yPred ≤ yTrue.length := by
  unfold countCorrect
  calc (List.zip yTrue yPred).countP (fun p => p.1 == p.2)
      ≤ (List.zip yTrue yPred).length := List.countP_le_length _
    _ = min yTrue.length yPred.length := List.length_zip _ _
    _ ≤ yTrue.length := min_le_left _ _

lemma accuracy_score_le_one (yTrue yPred : List ℕ) :
    accuracy_score yTrue yPred ≤ 1 := by
  unfold accuracy_score
  rcases Nat.eq_zero_or_pos yTrue.length with h | h
  · rw [h]
    simp
  · exact (div_le_one (by exact_mod_cast h)).mpr
      (Nat.cast_le.mpr (countCorrect_le_length yTrue yPred))

lemma accuracyOfOpt_spec (sv : Services) (s : SplitData) (o : Option TuningResult) :
    (∃ pred, accuracyOfOpt sv s o =
        (countCorrect s.y_test pred : ℚ) / (s.y_test.length : ℚ)) ∧
      0 ≤ accuracyOfOpt sv s o ∧ accuracyOfOpt sv s o ≤ 1 := by
  cases o with
  | none =>
    refine ⟨⟨[], ?_⟩, le_refl 0, by simp [accuracyOfOpt]⟩
    have hzip : List.zip s.y_test ([] : List ℕ) = [] := List.zip_nil_right
    simp [accuracyOfOpt, countCorrect, hzip]
  | some r =>
    exact ⟨⟨sv.predictFn r.best_estimator s.X_test, rfl⟩,
      accuracy_score_nonneg _ _, accuracy_score_le_one _ _⟩

/-! ### Concrete sample inputs used by the witness theorems -/

/-- A concrete opaque scorer for witnesses: score a configuration by its
depth. -/
def demoScore : Config → LabeledData → ℚ := fun c _ => (c.max_depth : ℚ)

/-- A concrete training partition for witnesses. -/
def demoTrain : LabeledData := { features := [], labels := [] }

/-- A concrete draw stream for witnesses: every raw draw is 0, so every
trial samples the first value of each declared range. -/
def demoDraws : ℕ → ℕ → ℕ := fun _ _ => 0

/-- The configuration demoDraws samples on every trial. -/
def demoConfig : Config :=
  { max_depth := 1, min_samples_split := 2, min_samples_leaf := 1 }

/-- The result the randomized runner returns on the demo inputs. -/
def demoRandRes : TuningResult :=
  { best_params := demoConfig
  , best_estimator := { cfg := demoConfig, trainData := demoTrain }
  , duration := 1 }

/-- Under demoScore the grid winner is the first grid point of depth 15. -/
def demoGridConfig : Config :=
  { max_depth := 15, min_samples_split := 2, min_samples_leaf := 1 }

/-- The result the grid runner returns on the demo inputs. -/
def demoGridRes : TuningResult :=
  { best_params := demoGridConfig
  , best_estimator := { cfg := demoGridConfig, trainData := demoTrain }
  , duration := 7 }

/-- A concrete service bundle for witnesses: predictions are all 0. -/
def demoServices : Services :=
  { scoreCV := demoScore
  , predictFn := fun _ X => X.map (fun _ => 0)
  , fitPredictDefault := fun _ X => X.map (fun _ => 0) }

/-- A concrete split for witnesses. -/
def demoSplitA : SplitData :=
  { X_train := [[1]], X_test := [[2]], y_train := [1], y_test := [0] }

/-- The same training partition as demoSplitA with a different test
partition. -/
def demoSplitB : SplitData :=
  { X_train := [[1]], X_test := [[3]], y_train := [1], y_test := [1] }

/-- A concrete five-row feature matrix for a full demo pipeline run. -/
def demoX : List (List ℚ) := [[1], [2], [3], [4], [5]]

/-- Labels for demoX. -/
def demoY : List ℕ := [1, 0, 1, 0, 1]

/-- The split the demo pipeline run works on. -/
def demoSplit : SplitData := dataset_split splitSeed demoX demoY

/-- The Default row the demo pipeline run produces: the baseline accuracy on
the held-out partition of demoSplit (its value is 0: the lone test example
has label 1 and the demo services predict 0). -/
def demoRow : Row :=
  { method := "Default"
  , accuracy := accuracy_score demoSplit.y_test
      (demoServices.fitPredictDefault (trainOf demoSplit) demoSplit.X_test)
  , training_time := 0 }

/-! ### Claim theorems -/

/-- Claim C1: for both tuning runners (randomized and grid), the returned
configuration is one whose mean k-fold cross-validation accuracy on the
training partition is maximal among all configurations evaluated, ties broken
first-seen in the strategy's internal candidate ordering (everything strictly
before the winner scores strictly less), and the returned model is one final
model refit on the entire training partition using the winning
configuration. -/
theorem runners_select_max_cv_and_refit
    (draws : ℕ → ℕ → ℕ) (score : Config → LabeledData → ℚ) (train : LabeledData)
    (rt gt : ℚ) (rres gres : TuningResult)
    (hr : random_search_fit draws score train rt = some rres)
    (hg : grid_search_fit score train gt = some gres) :
    (rres.best_params ∈ randomCandidates draws ∧
      (∀ c ∈ randomCandidates draws, score c train ≤ score rres.best_params train) ∧
      (∃ l₁ l₂, randomCandidates draws = l₁ ++ rres.best_params :: l₂ ∧
        ∀ c ∈ l₁, score c train < score rres.best_params train) ∧
      rres.best_estimator = { cfg := rres.best_params, trainData := train }) ∧
    (gres.best_params ∈ gridCombos ∧
      (∀ c ∈ gridCombos, score c train ≤ score gres.best_params train) ∧
      (∃ l₁ l₂, gridCombos = l₁ ++ gres.best_params :: l₂ ∧
        ∀ c ∈ l₁, score c train < score gres.best_params train) ∧
      gres.best_estimator = { cfg := gres.best_params, trainData := train }) := by
  obtain ⟨hsel, hest, _⟩ := searchFit_eq_some _ _ _ _ _ hr
  obtain ⟨hmem, hmax, hfirst⟩ := selectBest_spec _ _ _ hsel
  obtain ⟨hselg, hestg, _⟩ := searchFit_eq_some _ _ _ _ _ hg
  obtain ⟨hmemg, hmaxg, hfirstg⟩ := selectBest_spec _ _ _ hselg
  exact ⟨⟨hmem, hmax, hfirst, hest⟩, hmemg, hmaxg, hfirstg, hestg⟩

theorem runners_select_max_cv_and_refit_concrete :
    demoRandRes.best_params ∈ randomCandidates demoDraws ∧
      demoGridRes.best_params ∈ gridCombos ∧
      demoGridRes.best_estimator =
        { cfg := demoGridRes.best_params, trainData := demoTrain } :=
  ⟨(runners_select_max_cv_and_refit demoDraws demoScore demoTrain 1 7
      demoRandRes demoGridRes rfl rfl).1.1,
   (runners_select_max_cv_and_refit demoDraws demoScore demoTrain 1 7
      demoRandRes demoGridRes rfl rfl).2.1,
   (runners_select_max_cv_and_refit demoDraws demoScore demoTrain 1 7
      demoRandRes demoGridRes rfl rfl).2.2.2.2⟩

/-- Claim C2: the grid tuning runner evaluates every combination of the
Cartesian product of the declared per-parameter candidate lists, and the
number of configurations evaluated is exactly 4 * 3 * 3 = 36 (each
combination appearing exactly once). -/
theorem grid_evaluates_full_cartesian_product :
    gridCombos.length = 4 * 3 * 3 ∧
      (∀ d ∈ param_grid_max_depth, ∀ s ∈ param_grid_min_samples_split,
        ∀ l ∈ param_grid_min_samples_leaf,
          ({ max_depth := d, min_samples_split := s
           , min_samples_leaf := l } : Config) ∈ gridCombos) ∧
      gridCombos.Nodup := by
  decide

theorem grid_evaluates_full_cartesian_product_concrete :
    ({ max_depth := 3, min_samples_split := 2
     , min_samples_leaf := 1 } : Config) ∈ gridCombos :=
  grid_evaluates_full_cartesian_product.2.1 3 (by decide) 2 (by decide) 1 (by decide)

/-- Claim C3: the cross-validation accuracy of the configuration returned by
grid search is at least the accuracy of the single best grid point obtained
by independently re-scoring every combination of the declared grid with the
same scorer; the two agree exactly, so grid search is exhaustive and matches
a naive brute-force enumeration of the grid. -/
theorem grid_search_ge_brute_force (score : Config → LabeledData → ℚ)
    (train : LabeledData) (gt : ℚ) (gres : TuningResult)
    (hg : grid_search_fit score train gt = some gres) :
    bruteForceBestScore (fun c => score c train) ≤ score gres.best_params train ∧
      score gres.best_params train = bruteForceBestScore (fun c => score c train) := by
  obtain ⟨hsel, _, _⟩ := searchFit_eq_some _ _ _ _ _ hg
  obtain ⟨hmem, hmax, _⟩ := selectBest_spec _ _ _ hsel
  have hle : bruteForceBestScore (fun c => score c train) ≤ score gres.best_params train :=
    bestScoreOf_le _ _ _ gridCombos_ne_nil hmax
  have hge : score gres.best_params train ≤ bruteForceBestScore (fun c => score c train) :=
    le_bestScoreOf _ _ _ hmem
  exact ⟨hle, le_antisymm hge hle⟩

theorem grid_search_ge_brute_force_concrete :
    bruteForceBestScore (fun c => demoScore c demoTrain) ≤
      demoScore demoGridRes.best_params demoTrain :=
  (grid_search_ge_brute_force demoScore demoTrain 7 demoGridRes rfl).1

/-- Claim C4: with trial budget 50 the randomized runner samples and
evaluates exactly 50 configurations, every sampled configuration has each
parameter drawn from the parameter's declared range (with no deduplication
across trials), and whatever configuration the runner returns is one of the
50 sampled candidates. -/
theorem random_search_samples_fifty_from_ranges (draws : ℕ → ℕ → ℕ) :
    (randomCandidates draws).length = 50 ∧
      (∀ c ∈ randomCandidates draws,
        c.max_depth ∈ param_dist_max_depth ∧
          c.min_samples_split ∈ param_dist_min_samples_split ∧
          c.min_samples_leaf ∈ param_dist_min_samples_leaf) ∧
      (∀ (score : Config → LabeledData → ℚ) (train : LabeledData) (dur : ℚ)
          (res : TuningResult),
        random_search_fit draws score train dur = some res →
          res.best_params ∈ randomCandidates draws) := by
  refine ⟨length_randomCandidates draws, ?_, ?_⟩
  · intro c hc
    unfold randomCandidates at hc
    obtain ⟨i, _, hic⟩ := List.mem_map.mp hc
    subst hic
    exact ⟨pick_mem _ _ param_dist_max_depth_ne_nil,
           pick_mem _ _ param_dist_min_samples_split_ne_nil,
           pick_mem _ _ param_dist_min_samples_leaf_ne_nil⟩
  · intro score train dur res h
    obtain ⟨hsel, _, _⟩ := searchFit_eq_some _ _ _ _ _ h
    exact (selectBest_spec _ _ _ hsel).1

theorem random_search_samples_fifty_from_ranges_concrete :
    demoRandRes.best_params ∈ randomCandidates demoDraws ∧
      demoConfig.max_depth ∈ param_dist_max_depth :=
  ⟨(random_search_samples_fifty_from_ranges demoDraws).2.2 demoScore demoTrain 1
      demoRandRes rfl,
   ((random_search_samples_fifty_from_ranges demoDraws).2.1 demoConfig
      (by decide)).1⟩

/-- Claim C5: for every model evaluated (baseline and each search's best
model), the reported held-out accuracy equals the count of correct
predictions divided by the count of test examples, and the value lies in
[0, 1]. -/
theorem reported_accuracies_are_correct_fraction (ambientRng : ℕ) (sv : Services)
    (X : List (List ℚ)) (y : List ℕ) (rt gt : ℚ) :
    ∀ r ∈ (runPipeline ambientRng sv X y rt gt).table,
      (∃ pred, r.accuracy =
          (countCorrect (dataset_split splitSeed X y).y_test pred : ℚ) /
            ((dataset_split splitSeed X y).y_test.length : ℚ)) ∧
        0 ≤ r.accuracy ∧ r.accuracy ≤ 1 := by
  intro r hr
  simp only [runPipeline, tuningPhase, results, List.mem_cons,
    List.not_mem_nil, or_false] at hr
  rcases hr with hr | hr | hr
  · subst hr
    exact ⟨⟨sv.fitPredictDefault (trainOf (dataset_split splitSeed X y))
        (dataset_split splitSeed X y).X_test, rfl⟩,
      accuracy_score_nonneg _ _, accuracy_score_le_one _ _⟩
  · subst hr
    exact accuracyOfOpt_spec sv (dataset_split splitSeed X y)
      (random_search_fit notebookDraws sv.scoreCV
        (trainOf (dataset_split splitSeed X y)) rt)
  · subst hr
    exact accuracyOfOpt_spec sv (dataset_split splitSeed X y)
      (grid_search_fit sv.scoreCV (trainOf (dataset_split splitSeed X y)) gt)

theorem reported_accuracies_are_correct_fraction_concrete :
    0 ≤ demoRow.accuracy ∧ demoRow.accuracy ≤ 1 :=
  ⟨(reported_accuracies_are_correct_fraction 0 demoServices demoX demoY 1 2
      demoRow (by
        simp only [runPipeline, tuningPhase, results]
        exact List.mem_cons_self _ _)).2.1,
   (reported_accuracies_are_correct_fraction 0 demoServices demoX demoY 1 2
      demoRow (by
        simp only [runPipeline, tuningPhase, results]
        exact List.mem_cons_self _ _)).2.2⟩

/-- Claim C6: with the fixed splitting seed and identical inputs (dataset,
injected library services and clock readings), any two runs of the pipeline,
whatever the ambient external random state of each, produce identical
train/test partitions and an identical three-row comparison table. -/
theorem pipeline_deterministic_for_fixed_seed (a₁ a₂ : ℕ) (sv : Services)
    (X : List (List ℚ)) (y : List ℕ) (rt gt : ℚ) :
    (runPipeline a₁ sv X y rt gt).split = (runPipeline a₂ sv X y rt gt).split ∧
      (runPipeline a₁ sv X y rt gt).table = (runPipeline a₂ sv X y rt gt).table ∧
      runPipeline a₁ sv X y rt gt = runPipeline a₂ sv X y rt gt :=
  ⟨rfl, rfl, rfl⟩

/-- Claim C7: neither tuning runner reads the held-out test partition: the
tuning phase's results are unchanged under any change of the test partition
(both searches consume the training partition only), and the partitions
themselves pass through the tuning phase unmodified, to be read only at
final evaluation. -/
theorem tuning_reads_only_train_and_preserves_partitions (sv : Services)
    (draws : ℕ → ℕ → ℕ) (rt gt : ℚ) (s₁ s₂ : SplitData)
    (h1 : s₁.X_train = s₂.X_train) (h2 : s₁.y_train = s₂.y_train) :
    (tuningPhase sv draws s₁ rt gt).1 = (tuningPhase sv draws s₂ rt gt).1 ∧
      (tuningPhase sv draws s₁ rt gt).2.1 = (tuningPhase sv draws s₂ rt gt).2.1 ∧
      (tuningPhase sv draws s₁ rt gt).2.2 = s₁ := by
  have ht : trainOf s₁ = trainOf s₂ := by
    unfold trainOf
    rw [h1, h2]
  refine ⟨?_, ?_, rfl⟩
  · simp only [tuningPhase, ht]
  · simp only [tuningPhase, ht]

theorem tuning_reads_only_train_and_preserves_partitions_concrete :
    (tuningPhase demoServices notebookDraws demoSplitA 1 2).1 =
        (tuningPhase demoServices notebookDraws demoSplitB 1 2).1 ∧
      (tuningPhase demoServices notebookDraws demoSplitA 1 2).2.1 =
        (tuningPhase demoServices notebookDraws demoSplitB 1 2).2.1 ∧
      (tuningPhase demoServices notebookDraws demoSplitA 1 2).2.2 = demoSplitA :=
  tuning_reads_only_train_and_preserves_partitions demoServices notebookDraws
    1 2 demoSplitA demoSplitB rfl rfl

/-- Claim C8: the reporter assembles an ordered three-row table, rows in the
order Default, Random Search, Grid Search, each row carrying that method's
held-out accuracy and recorded training time, the Default training time
exactly 0 by convention, and emits exactly that table (one rendered line per
row) to standard output. -/
theorem reporter_table_order_and_default_time_zero (ambientRng : ℕ)
    (sv : Services) (X : List (List ℚ)) (y : List ℕ) (rt gt : ℚ) :
    ((runPipeline ambientRng sv X y rt gt).table).map Row.method =
        ["Default", "Random Search", "Grid Search"] ∧
      ((runPipeline ambientRng sv X y rt gt).table).map Row.training_time =
        [0, rt, gt] ∧
      (∃ da ra ga,
        (runPipeline ambientRng sv X y rt gt).table = results da ra ga rt gt) ∧
      (runPipeline ambientRng sv X y rt gt).stdout =
        reportOutput ((runPipeline ambientRng sv X y rt gt).table) := by
  refine ⟨?_, ?_, ⟨_, _, _, rfl⟩, rfl⟩
  · simp [runPipeline, results]
  · simp [runPipeline, results]

/-- Claim C9: every value of the declared randomized ranges and of the
declared grid is a value the decision-tree constructor accepts, and so is
every configuration the randomized runner can sample from those ranges: the
InvalidParameterRange failure branch is unreachable for the declared search
spaces. -/
theorem declared_search_spaces_accepted :
    (∀ d ∈ param_dist_max_depth, ∀ s ∈ param_dist_min_samples_split,
      ∀ l ∈ param_dist_min_samples_leaf,
        acceptsConfig { max_depth := d, min_samples_split := s
                      , min_samples_leaf := l }) ∧
      (∀ c ∈ gridCombos, acceptsConfig c) ∧
      (∀ draws : ℕ → ℕ → ℕ, ∀ c ∈ randomCandidates draws, acceptsConfig c) := by
  refine ⟨?_, by decide, ?_⟩
  · intro d hd s hs l hl
    exact ⟨mem_arange _ _ _ hd, mem_arange _ _ _ hs, mem_arange _ _ _ hl⟩
  · intro draws c hc
    unfold randomCandidates at hc
    obtain ⟨i, _, hic⟩ := List.mem_map.mp hc
    subst hic
    exact ⟨mem_arange _ _ _ (pick_mem _ _ param_dist_max_depth_ne_nil),
           mem_arange _ _ _ (pick_mem _ _ param_dist_min_samples_split_ne_nil),
           mem_arange _ _ _ (pick_mem _ _ param_dist_min_samples_leaf_ne_nil)⟩

theorem declared_search_spaces_accepted_concrete :
    acceptsConfig { max_depth := 3, min_samples_split := 2
                  , min_samples_leaf := 1 } :=
  declared_search_spaces_accepted.1 3 (by decide) 2 (by decide) 1 (by decide)

/-- Claim C10: the grid tuning runner is handed no random seed and draws no
random samples: with the ambient random state threaded explicitly, its result
is identical for any two ambient states (a deterministic function of the
scorer, the training partition and the declared grid alone) and the ambient
state passes through unconsumed. -/
theorem grid_search_uses_no_randomness (a₁ a₂ : ℕ)
    (score : Config → LabeledData → ℚ) (train : LabeledData) (gt : ℚ) :
    (grid_run a₁ score train gt).1 = (grid_run a₂ score train gt).1 ∧
      (grid_run a₁ score train gt).2 = a₁ :=
  ⟨rfl, rfl⟩

end Notebook
